import Mathlib

/-!
Verification of the metrics module of `streamlit_prophet`
(`src/lib/evaluation/metrics.py`).

Modelling conventions for the shallow embedding:

* Numeric values (numpy float64) are modelled as exact rationals `ℚ`;
  the square root forced by `RMSE` lives in `ℝ` via the cast `ℚ → ℝ`.
* A numpy NaN (which the code produces through `np.mean` of an empty
  array — numpy emits a `RuntimeWarning` and returns NaN, it does NOT
  raise, so the bare `except:` clause does not fire) is modelled as
  `Option.none`; an ordinary float value `v` is `some v`.
* A pandas DataFrame column of values is a `List`; a metrics table is a
  list of rows in the DataFrame's row order.
* `pd.DataFrame.__getitem__` with a column list (`df[[a, b]]`) returns a
  copy, so the per-metric tables sliced off before the formatting stage
  are modelled as values computed before it, unaffected by it.
-/

namespace StreamlitProphet

/-- `np.mean` over a list of values: NaN (`none`) on the empty list,
otherwise the arithmetic mean. -/
def listMean (l : List ℚ) : Option ℚ :=
  if l = [] then none else some (l.sum / l.length)

/-- `MAPE(y_true, y_pred)` from `metrics.py`: keep the positions where
`y_true != 0`, average `|(t - p) / t|` over them.  The `try/except`
wrapper returns 0 only when an exception is raised; `np.mean` of the
empty selection returns NaN without raising, hence `none` here. -/
def MAPE (y_true y_pred : List ℚ) : Option ℚ :=
  let pairs := (y_true.zip y_pred).filter fun x => decide (x.1 ≠ 0)
  listMean (pairs.map fun x => |(x.1 - x.2) / x.1|)

/-- `SMAPE(y_true, y_pred)` from `metrics.py`: keep the positions where
`|t| + |p| != 0`, average `2|t - p| / (|t| + |p|)` over them; NaN
(`none`) when every position is dropped, for the same reason as `MAPE`. -/
def SMAPE (y_true y_pred : List ℚ) : Option ℚ :=
  let pairs := (y_true.zip y_pred).filter fun x => decide (|x.1| + |x.2| ≠ 0)
  listMean (pairs.map fun x => 2 * |x.1 - x.2| / (|x.1| + |x.2|))

/-- `MSE(y_true, y_pred)` from `metrics.py`: mean of squared residuals
(no degenerate-input defence; NaN on empty input). -/
def MSE (y_true y_pred : List ℚ) : Option ℚ :=
  listMean ((y_true.zip y_pred).map fun x => (x.1 - x.2) ^ 2)

/-- `MAE(y_true, y_pred)` from `metrics.py`: mean of absolute residuals. -/
def MAE (y_true y_pred : List ℚ) : Option ℚ :=
  listMean ((y_true.zip y_pred).map fun x => |x.1 - x.2|)

/-- `RMSE(y_true, y_pred)` from `metrics.py`: literally
`np.sqrt(MSE(y_true, y_pred))`. -/
noncomputable def RMSE (y_true y_pred : List ℚ) : Option ℝ :=
  (MSE y_true y_pred).map fun q => Real.sqrt (q : ℝ)

/-- C1: on input whose every denominator is zero, MAPE and SMAPE do NOT
return 0: the filtered selection is empty, `np.mean` of an empty array
returns NaN (with a warning, not an exception), so the `except: return 0`
branch is never taken and the functions return NaN (`none`). -/
theorem mape_smape_all_zero_denominator_is_nan :
    MAPE [0, 0] [5, 5] = none ∧ SMAPE [0, 0] [0, 0] = none := by
  constructor <;> norm_num [MAPE, SMAPE, listMean]

/-! Helper lemmas about `listMean`. -/

theorem listMean_of_ne_nil {l : List ℚ} (h : l ≠ []) :
    listMean l = some (l.sum / l.length) := by
  simp [listMean, h]

theorem mean_nonneg {l : List ℚ} (h0 : ∀ x ∈ l, 0 ≤ x) :
    0 ≤ l.sum / l.length :=
  div_nonneg (List.sum_nonneg h0) (Nat.cast_nonneg _)

theorem mean_le {l : List ℚ} {c : ℚ} (hne : l ≠ []) (hc : ∀ x ∈ l, x ≤ c) :
    l.sum / l.length ≤ c := by
  have hlen : 0 < (l.length : ℚ) := by
    have := List.length_pos.mpr hne
    exact_mod_cast this
  rw [div_le_iff₀ hlen]
  have := List.sum_le_card_nsmul l c hc
  rw [nsmul_eq_mul] at this
  linarith

theorem listMean_of_all_zero {l : List ℚ} (hz : ∀ x ∈ l, x = 0) :
    listMean l = none ∨ listMean l = some 0 := by
  rcases eq_or_ne l [] with h | h
  · exact Or.inl (by simp [listMean, h])
  · refine Or.inr ?_
    rw [listMean_of_ne_nil h, List.sum_eq_zero hz, zero_div]

/-- Every pair in the self-zip of a list has equal components. -/
theorem zip_self_eq {l : List ℚ} {p : ℚ × ℚ} (h : p ∈ l.zip l) : p.1 = p.2 := by
  induction l with
  | nil => simp at h
  | cons a t ih =>
      rw [List.zip_cons_cons, List.mem_cons] at h
      rcases h with h | h
      · subst h; rfl
      · exact ih h

/-- C7: RMSE is exactly the square root of MSE, for every pair of input
sequences (the code computes `np.sqrt(MSE(y_true, y_pred))`). -/
theorem rmse_eq_sqrt_mse (y_true y_pred : List ℚ) :
    RMSE y_true y_pred = (MSE y_true y_pred).map fun q => Real.sqrt (q : ℝ) :=
  rfl

theorem MAPE_eq_mean (y_true y_pred : List ℚ) :
    MAPE y_true y_pred =
      listMean (((y_true.zip y_pred).filter fun x => decide (x.1 ≠ 0)).map
        fun x => |(x.1 - x.2) / x.1|) := rfl

theorem SMAPE_eq_mean (y_true y_pred : List ℚ) :
    SMAPE y_true y_pred =
      listMean (((y_true.zip y_pred).filter fun x => decide (|x.1| + |x.2| ≠ 0)).map
        fun x => 2 * |x.1 - x.2| / (|x.1| + |x.2|)) := rfl

/-- C9: on equal-length inputs with at least one nonzero truth value,
MAPE and SMAPE each return an actual non-negative value, and that value
is 0 when the truth and forecast sequences coincide. -/
theorem mape_smape_nonneg_and_zero_when_equal (y_true y_pred : List ℚ)
    (hlen : y_true.length = y_pred.length) (hnz : ∃ t ∈ y_true, t ≠ 0) :
    (∃ v, MAPE y_true y_pred = some v ∧ 0 ≤ v) ∧
    (∃ v, SMAPE y_true y_pred = some v ∧ 0 ≤ v) ∧
    (y_true = y_pred → MAPE y_true y_pred = some 0 ∧ SMAPE y_true y_pred = some 0) := by
  obtain ⟨t, ht, htnz⟩ := hnz
  have hz : t ∈ (y_true.zip y_pred).map Prod.fst := by
    rw [List.map_fst_zip _ _ (le_of_eq hlen)]; exact ht
  obtain ⟨p, hp, hpt⟩ := List.mem_map.mp hz
  have hp1 : p.1 ≠ 0 := by rw [hpt]; exact htnz
  have hpf₁ : p ∈ (y_true.zip y_pred).filter fun x => decide (x.1 ≠ 0) :=
    List.mem_filter.mpr ⟨hp, by simpa using hp1⟩
  have hpf₂ : p ∈ (y_true.zip y_pred).filter fun x => decide (|x.1| + |x.2| ≠ 0) := by
    refine List.mem_filter.mpr ⟨hp, ?_⟩
    have : 0 < |p.1| + |p.2| := add_pos_of_pos_of_nonneg (abs_pos.mpr hp1) (abs_nonneg _)
    simpa using this.ne'
  have hne₁ : ((y_true.zip y_pred).filter fun x => decide (x.1 ≠ 0)).map
      (fun x => |(x.1 - x.2) / x.1|) ≠ [] :=
    List.ne_nil_of_mem (List.mem_map_of_mem _ hpf₁)
  have hne₂ : ((y_true.zip y_pred).filter fun x => decide (|x.1| + |x.2| ≠ 0)).map
      (fun x => 2 * |x.1 - x.2| / (|x.1| + |x.2|)) ≠ [] :=
    List.ne_nil_of_mem (List.mem_map_of_mem _ hpf₂)
  refine ⟨⟨_, by rw [MAPE_eq_mean, listMean_of_ne_nil hne₁], ?_⟩,
          ⟨_, by rw [SMAPE_eq_mean, listMean_of_ne_nil hne₂], ?_⟩, ?_⟩
  · exact mean_nonneg fun x hx => by
      obtain ⟨q, _, rfl⟩ := List.mem_map.mp hx; exact abs_nonneg _
  · refine mean_nonneg fun x hx => ?_
    obtain ⟨q, hq, rfl⟩ := List.mem_map.mp hx
    have : 0 ≤ |q.1| + |q.2| := by positivity
    positivity
  · intro heq
    subst heq
    constructor
    · rw [MAPE_eq_mean, listMean_of_ne_nil hne₁, List.sum_eq_zero, zero_div]
      intro x hx
      obtain ⟨q, hq, rfl⟩ := List.mem_map.mp hx
      have hq12 := zip_self_eq (List.mem_of_mem_filter hq)
      rw [hq12, sub_self, zero_div, abs_zero]
    · rw [SMAPE_eq_mean, listMean_of_ne_nil hne₂, List.sum_eq_zero, zero_div]
      intro x hx
      obtain ⟨q, hq, rfl⟩ := List.mem_map.mp hx
      have hq12 := zip_self_eq (List.mem_of_mem_filter hq)
      rw [hq12, sub_self, abs_zero, mul_zero, zero_div]

/-- Witness for C9 at truth = forecast = `[1, 2]`. -/
theorem mape_smape_nonneg_and_zero_when_equal_witness :
    (∃ v, MAPE [1, 2] [1, 2] = some v ∧ 0 ≤ v) ∧
    (∃ v, SMAPE [1, 2] [1, 2] = some v ∧ 0 ≤ v) ∧
    (MAPE [1, 2] [1, 2] = some 0 ∧ SMAPE [1, 2] [1, 2] = some 0) :=
  ⟨(mape_smape_nonneg_and_zero_when_equal [1, 2] [1, 2] rfl
      ⟨1, by norm_num, by norm_num⟩).1,
   (mape_smape_nonneg_and_zero_when_equal [1, 2] [1, 2] rfl
      ⟨1, by norm_num, by norm_num⟩).2.1,
   (mape_smape_nonneg_and_zero_when_equal [1, 2] [1, 2] rfl
      ⟨1, by norm_num, by norm_num⟩).2.2 rfl⟩

/-- C10: on equal-length inputs with at least one position whose
denominator `|truth| + |forecast|` is nonzero, SMAPE returns a value in
`[0, 2]`: every retained term `2|t - p| / (|t| + |p|)` is at most 2, so
the mean is too. -/
theorem smape_mem_zero_two (y_true y_pred : List ℚ)
    (hlen : y_true.length = y_pred.length)
    (hpos : ∃ p ∈ y_true.zip y_pred, |p.1| + |p.2| ≠ 0) :
    ∃ v, SMAPE y_true y_pred = some v ∧ 0 ≤ v ∧ v ≤ 2 := by
  obtain ⟨p, hp, hppos⟩ := hpos
  have hpf : p ∈ (y_true.zip y_pred).filter fun x => decide (|x.1| + |x.2| ≠ 0) :=
    List.mem_filter.mpr ⟨hp, by simpa using hppos⟩
  have hne : ((y_true.zip y_pred).filter fun x => decide (|x.1| + |x.2| ≠ 0)).map
      (fun x => 2 * |x.1 - x.2| / (|x.1| + |x.2|)) ≠ [] :=
    List.ne_nil_of_mem (List.mem_map_of_mem _ hpf)
  refine ⟨_, by rw [SMAPE_eq_mean, listMean_of_ne_nil hne], ?_, ?_⟩
  · refine mean_nonneg fun x hx => ?_
    obtain ⟨q, hq, rfl⟩ := List.mem_map.mp hx
    have : 0 ≤ |q.1| + |q.2| := by positivity
    positivity
  · refine mean_le hne fun x hx => ?_
    obtain ⟨q, hq, rfl⟩ := List.mem_map.mp hx
    have hq2 : |q.1| + |q.2| ≠ 0 := by simpa using (List.mem_filter.mp hq).2
    have hqpos : 0 < |q.1| + |q.2| := lt_of_le_of_ne (by positivity) (Ne.symm hq2)
    rw [div_le_iff₀ hqpos]
    have := abs_sub q.1 q.2
    linarith

/-- Witness for C10 at truth `[1]`, forecast `[3]`. -/
theorem smape_mem_zero_two_witness :
    ∃ v, SMAPE [1] [3] = some v ∧ 0 ≤ v ∧ v ≤ 2 :=
  smape_mem_zero_two [1] [3] rfl ⟨(1, 3), by norm_num, by norm_num⟩

/-! ## The metric computation pipeline (`get_perf_metrics` and helpers)

A row of the evaluation DataFrame carries the grouping-key column
(`eval['granularity']`, a fold cutoff in CV mode or a time-bucket label
in plain mode) and the `truth` / `forecast` columns.  The key type `K`
is kept abstract (pandas group labels are timestamps or strings). -/

/-- The five metric names of the `metrics` dict in `get_perf_metrics`. -/
inductive MetricName
  | mape | smape | mse | rmse | mae
deriving DecidableEq

/-- Dispatch of the `metrics` dict: every metric value is embedded into
`ℝ` so that `RMSE` (a square root) fits alongside the rational ones. -/
noncomputable def evalMetric : MetricName → List ℚ → List ℚ → Option ℝ
  | .mape => fun t f => (MAPE t f).map fun q => (q : ℝ)
  | .smape => fun t f => (SMAPE t f).map fun q => (q : ℝ)
  | .mse => fun t f => (MSE t f).map fun q => (q : ℝ)
  | .rmse => RMSE
  | .mae => fun t f => (MAE t f).map fun q => (q : ℝ)

/-- One row of the evaluation DataFrame handed to `_compute_metrics`. -/
structure EvalRow (K : Type) where
  granularity : K
  truth : ℚ
  forecast : ℚ

variable {K : Type}

/-- The rows of one group (`df.groupby(granularity)` member), in the
original row order (pandas groupby preserves intra-group order). -/
def groupRows [DecidableEq K] (rows : List (EvalRow K)) (k : K) : List (EvalRow K) :=
  rows.filter fun r => decide (r.granularity = k)

/-- `truth` summed within a group (`.agg({'truth': 'sum'})`). -/
def sumTruth [DecidableEq K] (rows : List (EvalRow K)) (k : K) : ℚ :=
  ((groupRows rows k).map EvalRow.truth).sum

/-- `forecast` summed within a group (`.agg({'forecast': 'sum'})`). -/
def sumForecast [DecidableEq K] (rows : List (EvalRow K)) (k : K) : ℚ :=
  ((groupRows rows k).map EvalRow.forecast).sum

/-- The `truth` column of one group, in row order. -/
def groupTruth [DecidableEq K] (rows : List (EvalRow K)) (k : K) : List ℚ :=
  (groupRows rows k).map EvalRow.truth

/-- The `forecast` column of one group, in row order. -/
def groupForecast [DecidableEq K] (rows : List (EvalRow K)) (k : K) : List ℚ :=
  (groupRows rows k).map EvalRow.forecast

/-- The metric cell of `_compute_metrics` for metric `m` and group `k`:
in aggregate mode (`get_perf_on_agg_forecast`) the metric function is
applied to the two within-group sums as 1-element series, otherwise to
the full truth/forecast vectors of the group. -/
noncomputable def metricCell [DecidableEq K] (agg : Bool) (m : MetricName)
    (rows : List (EvalRow K)) (k : K) : Option ℝ :=
  if agg then evalMetric m [sumTruth rows k] [sumForecast rows k]
  else evalMetric m (groupTruth rows k) (groupForecast rows k)

/-- C6 (amended): in aggregate mode every requested metric function is
applied to the two within-group sums as single values; consequently the
MAE, RMSE and MSE cells of a group with summed truth `S_t` and summed
forecast `S_f` are `|S_t - S_f|`, `|S_t - S_f|` and `(S_t - S_f)^2`.
(The example value the claim quotes is wrong: a group with
truth = [0, 0] and forecast = [5, 5] has `S_t = 0`, `S_f = 10` and
aggregate MAE `|0 - 10| = 10`, not 5.) -/
theorem agg_mode_applies_metrics_to_sums [DecidableEq K]
    (rows : List (EvalRow K)) (k : K) :
    (∀ m, metricCell true m rows k =
      evalMetric m [sumTruth rows k] [sumForecast rows k]) ∧
    metricCell true .mae rows k =
      some |(sumTruth rows k : ℝ) - (sumForecast rows k : ℝ)| ∧
    metricCell true .rmse rows k =
      some |(sumTruth rows k : ℝ) - (sumForecast rows k : ℝ)| ∧
    metricCell true .mse rows k =
      some (((sumTruth rows k : ℝ) - (sumForecast rows k : ℝ)) ^ 2) := by
  refine ⟨fun m => rfl, ?_, ?_, ?_⟩
  · simp [metricCell, evalMetric, MAE, listMean]
  · simp [metricCell, evalMetric, RMSE, MSE, listMean]
    exact Real.sqrt_sq_eq_abs _
  · simp [metricCell, evalMetric, MSE, listMean]

/-- Counterexample for C6 as stated: its example asserts that a group
with truth = [0, 0] and forecast = [5, 5] has aggregate MAE 5, but the
code sums before scoring (`S_t = 0`, `S_f = 10`), so the aggregate MAE
cell is `MAE(0, 10) = 10`, not 5. -/
theorem agg_mae_example_counterexample :
    metricCell true MetricName.mae
      [({granularity := 0, truth := 0, forecast := 5} : EvalRow ℚ),
       {granularity := 0, truth := 0, forecast := 5}] (0 : ℚ) = some 10 ∧
    metricCell true MetricName.mae
      [({granularity := 0, truth := 0, forecast := 5} : EvalRow ℚ),
       {granularity := 0, truth := 0, forecast := 5}] (0 : ℚ) ≠ some 5 := by
  have h : metricCell true MetricName.mae
      [({granularity := 0, truth := 0, forecast := 5} : EvalRow ℚ),
       {granularity := 0, truth := 0, forecast := 5}] (0 : ℚ) = some 10 := by
    simp [metricCell, evalMetric, MAE, listMean, sumTruth, sumForecast, groupRows]
    norm_num
  refine ⟨h, ?_⟩
  rw [h]
  intro hc
  have := Option.some.inj hc
  norm_num at this

/-- `sorted(df[granularity].unique())`: the distinct group keys in
ascending order.  This is both the scaffold of the per-row branch of
`_compute_metrics` and the row order of its aggregate branch
(`groupby(...).reset_index()` sorts keys ascending). -/
def sortedKeys [LinearOrder K] [DecidableEq K] (rows : List (EvalRow K)) : List K :=
  List.insertionSort (· ≤ ·) (rows.map EvalRow.granularity).dedup

/-- The synthetic fold label `f"Fold {i}"` of `__format_metrics_df_cv`. -/
def foldLabel (i : ℕ) : String := "Fold " ++ toString i

/-- `__format_metrics_df_cv` applied to the rows of the CV metrics
table, modelled on their `Valid Start` values: sort the rows descending
(the code sorts the ISO-rendered timestamp strings; their lexicographic
order agrees with the chronological order of the timestamps), then
overwrite the grouping-key column with `Fold 1`, `Fold 2`, … in the
post-sort order. -/
def foldTable [LinearOrder K] (vs : List K) : List (String × K) :=
  (List.insertionSort (· ≥ ·) vs).enum.map fun p => (foldLabel (p.1 + 1), p.2)

/-- C5: with distinct `Valid Start` values, the row with the latest
`Valid Start` is labelled `Fold 1` and sits first, the labels are
`Fold 1`, …, `Fold N` in row order, and the `Valid Start` values are
strictly decreasing along the rows. -/
theorem cv_fold_relabeling [LinearOrder K] (vs : List K)
    (hnd : vs.Nodup) (hne : vs ≠ []) :
    (∃ m, m ∈ vs ∧ (∀ w ∈ vs, w ≤ m) ∧
      (foldTable vs).head? = some (foldLabel 1, m)) ∧
    (foldTable vs).map Prod.fst =
      (List.range vs.length).map (fun i => foldLabel (i + 1)) ∧
    ((foldTable vs).map Prod.snd).Pairwise (· > ·) := by
  have hperm : List.Perm (List.insertionSort (· ≥ ·) vs) vs :=
    List.perm_insertionSort _ vs
  have hsorted : List.Sorted (· ≥ ·) (List.insertionSort (· ≥ ·) vs) :=
    List.sorted_insertionSort _ vs
  have hsn : (List.insertionSort (· ≥ ·) vs).Nodup := hperm.symm.nodup hnd
  have hsne : List.insertionSort (· ≥ ·) vs ≠ [] := by
    rw [← List.length_pos, hperm.length_eq]
    exact List.length_pos.mpr hne
  have hsnd : (foldTable vs).map Prod.snd = List.insertionSort (· ≥ ·) vs := by
    rw [foldTable, List.map_map]
    exact List.enum_map_snd _
  refine ⟨?_, ?_, ?_⟩
  · obtain ⟨m, rest, hcons⟩ := List.exists_cons_of_ne_nil hsne
    refine ⟨m, hperm.subset (hcons ▸ List.mem_cons_self m rest), ?_, ?_⟩
    · intro w hw
      have hw' : w ∈ m :: rest := hcons ▸ hperm.symm.subset hw
      rcases List.mem_cons.mp hw' with h | h
      · exact le_of_eq h
      · exact List.rel_of_sorted_cons (hcons ▸ hsorted) w h
    · rw [foldTable, hcons]
      rfl
  · rw [foldTable, List.map_map]
    rw [show vs.length = (List.insertionSort (· ≥ ·) vs).length from hperm.length_eq.symm]
    rw [← List.enum_map_fst (List.insertionSort (· ≥ ·) vs), List.map_map]
    rfl
  · rw [hsnd]
    exact (hsorted.and hsn).imp fun h => lt_of_le_of_ne h.1 (Ne.symm h.2)

/-- Witness for C5 at the distinct `Valid Start` values `[1, 3, 2]`. -/
theorem cv_fold_relabeling_witness :
    (∃ m, m ∈ [(1 : ℚ), 3, 2] ∧ (∀ w ∈ [(1 : ℚ), 3, 2], w ≤ m) ∧
      (foldTable [(1 : ℚ), 3, 2]).head? = some (foldLabel 1, m)) ∧
    (foldTable [(1 : ℚ), 3, 2]).map Prod.fst =
      (List.range ([(1 : ℚ), 3, 2] : List ℚ).length).map (fun i => foldLabel (i + 1)) ∧
    ((foldTable [(1 : ℚ), 3, 2]).map Prod.snd).Pairwise (· > ·) :=
  cv_fold_relabeling [(1 : ℚ), 3, 2] (by decide) (by decide)

/-! ## `_format_eval_results`

Plain mode slices the per-metric tables and the display table from the
same metrics table (rows in `sortedKeys` order); CV mode slices them
from the output of `__format_metrics_df_cv` (rows in fold order), before
`__add_avg_std_metrics` appends the two summary rows.  A pandas column
slice `df[[a, b]]` returns a copy, so each sliced table is an
independent value. -/

/-- Plain-mode `metrics_dict`: for each requested metric, the
`(granularity, value)` pairs in table row order. -/
noncomputable def metricsDictPlain [LinearOrder K] [DecidableEq K] (agg : Bool)
    (ms : List MetricName) (rows : List (EvalRow K)) :
    List (MetricName × List (K × Option ℝ)) :=
  ms.map fun m => (m, (sortedKeys rows).map fun k => (k, metricCell agg m rows k))

/-- Plain-mode display-table index: the grouping-key column, in table
row order (`set_index(granularity)`). -/
def displayLabelsPlain [LinearOrder K] [DecidableEq K]
    (rows : List (EvalRow K)) : List K :=
  sortedKeys rows

/-- CV-mode `metrics_dict`: sliced from the relabelled fold table, so
its group column holds the `Fold i` labels in fold order. -/
noncomputable def metricsDictCV [LinearOrder K] [DecidableEq K] (agg : Bool)
    (ms : List MetricName) (rows : List (EvalRow K)) :
    List (MetricName × List (String × Option ℝ)) :=
  ms.map fun m =>
    (m, (foldTable (sortedKeys rows)).map fun r => (r.1, metricCell agg m rows r.2))

/-- CV-mode display-table group labels: the `Fold i` labels of the fold
rows, in fold order (the appended `Avg`/`Std` rows are summary rows, not
groups). -/
def displayGroupLabelsCV [LinearOrder K] [DecidableEq K]
    (rows : List (EvalRow K)) : List String :=
  (foldTable (sortedKeys rows)).map Prod.fst

/-- C3: every key of the returned per-metric mapping is a requested
metric name, and the group-key column of each per-metric table equals,
as an ordered sequence, the group labels of the display table — the
sorted keys in plain mode, the `Fold i` labels in fold order in CV
mode. -/
theorem dict_keys_and_group_alignment [LinearOrder K] [DecidableEq K]
    (agg : Bool) (ms : List MetricName) (rows : List (EvalRow K)) :
    (∀ p ∈ metricsDictPlain agg ms rows,
        p.1 ∈ ms ∧ p.2.map Prod.fst = displayLabelsPlain rows) ∧
    (∀ p ∈ metricsDictCV agg ms rows,
        p.1 ∈ ms ∧ p.2.map Prod.fst = displayGroupLabelsCV rows) := by
  constructor
  · intro p hp
    obtain ⟨m, hm, heq⟩ := List.mem_map.mp hp
    refine ⟨?_, ?_⟩
    · rw [← heq]; exact hm
    · rw [← heq, List.map_map]
      exact List.map_id _
  · intro p hp
    obtain ⟨m, hm, heq⟩ := List.mem_map.mp hp
    refine ⟨?_, ?_⟩
    · rw [← heq]; exact hm
    · rw [← heq, List.map_map]
      rfl

/-- A one-row evaluation table used by the witnesses. -/
def witnessRow : EvalRow ℚ := ⟨1, 2, 3⟩

/-- The single entry of the plain-mode per-metric mapping for the
one-row table and the request `[MAE]`. -/
noncomputable def witnessDictEntry : MetricName × List (ℚ × Option ℝ) :=
  (MetricName.mae,
    (sortedKeys [witnessRow]).map fun k => (k, metricCell false .mae [witnessRow] k))

/-- Witness for C3: one requested metric (`MAE`), one evaluation row. -/
theorem dict_keys_and_group_alignment_witness :
    witnessDictEntry.1 ∈ [MetricName.mae] ∧
    witnessDictEntry.2.map Prod.fst = displayLabelsPlain [witnessRow] :=
  (dict_keys_and_group_alignment false [MetricName.mae] [witnessRow]).1
    witnessDictEntry (List.mem_singleton_self _)

/-! ## `__add_avg_std_metrics`

The display table at this point is indexed by the fold label and holds
only the metric columns; a row is `(label, cells)` with the cells in
requested-metric order.  The code appends the `Avg` row by mutating the
frame (`metrics_df.loc[('Avg', ...)] = metrics_df.mean(axis=0)`) and
only THEN computes `metrics_df.std(axis=0)` — so the standard deviation
is taken over the fold rows plus the freshly appended `Avg` row. -/

/-- pandas `mean(axis=0)` of one column: NaN cells are skipped
(`skipna=True` default); an all-NaN column gives NaN.  `l.filterMap id`
is the list of non-NaN cell values, in row order. -/
noncomputable def pandasMean (l : List (Option ℝ)) : Option ℝ :=
  if l.filterMap id = [] then none
  else some ((l.filterMap id).sum / (l.filterMap id).length)

/-- pandas `std(axis=0)` (default `ddof=1`) of one column: NaN cells are
skipped; fewer than two retained values give NaN. -/
noncomputable def pandasStd (l : List (Option ℝ)) : Option ℝ :=
  if (l.filterMap id).length ≤ 1 then none
  else some (Real.sqrt
    (((l.filterMap id).map
        fun x => (x - (l.filterMap id).sum / (l.filterMap id).length) ^ 2).sum /
      (((l.filterMap id).length : ℝ) - 1)))

/-- Column `j` of a display table, in row order. -/
def column (tbl : List (String × List (Option ℝ))) (j : ℕ) : List (Option ℝ) :=
  tbl.map fun r => r.2.getD j none

/-- `__add_avg_std_metrics` on a table with `n` metric columns: append
the `Avg` row computed over the current (fold) rows, then append the
`Std` row computed over the rows present at that point — the fold rows
AND the just-appended `Avg` row. -/
noncomputable def addAvgStd (n : ℕ) (tbl : List (String × List (Option ℝ))) :
    List (String × List (Option ℝ)) :=
  (tbl ++ [("Avg", (List.range n).map fun j => pandasMean (column tbl j))]) ++
    [("Std", (List.range n).map fun j => pandasStd
      (column (tbl ++ [("Avg", (List.range n).map fun j => pandasMean (column tbl j))]) j))]

theorem filterMap_id_map_some (cs : List ℝ) : (cs.map some).filterMap id = cs := by
  simp [List.filterMap_map]

theorem pandasMean_all_some (cs : List ℝ) (hne : cs ≠ []) :
    pandasMean (cs.map some) = some (cs.sum / cs.length) := by
  rw [pandasMean, filterMap_id_map_some, if_neg hne]

theorem column_append_row (tbl : List (String × List (Option ℝ)))
    (r : String × List (Option ℝ)) (j : ℕ) :
    column (tbl ++ [r]) j = column tbl j ++ [r.2.getD j none] := by
  simp [column]

/-- C4: the `Avg` row appended by `__add_avg_std_metrics` holds, in each
metric column, the arithmetic mean of that column's values over exactly
the `N` fold rows (the `Std` row does not exist yet when the mean is
taken). -/
theorem avg_row_is_fold_mean (n : ℕ) (tbl : List (String × List (Option ℝ)))
    (j : ℕ) (hj : j < n) (cs : List ℝ)
    (hcol : column tbl j = cs.map some) (hne : cs ≠ []) :
    ∃ cells, (addAvgStd n tbl)[tbl.length]? = some ("Avg", cells) ∧
      cells[j]? = some (some (cs.sum / cs.length)) := by
  refine ⟨(List.range n).map fun i => pandasMean (column tbl i), ?_, ?_⟩
  · rw [addAvgStd, List.append_assoc,
      List.getElem?_append_right (le_refl tbl.length)]
    simp
  · rw [List.getElem?_map, List.getElem?_range hj]
    rw [Option.map_some']
    rw [hcol, pandasMean_all_some cs hne]

/-- Helper: the mean of a list extended by its own mean is unchanged. -/
theorem mean_append_own_mean (cs : List ℝ) (hne : cs ≠ []) :
    (cs ++ [cs.sum / cs.length]).sum / ((cs ++ [cs.sum / cs.length]).length) =
      cs.sum / cs.length := by
  have hN : (cs.length : ℝ) ≠ 0 := by
    have := List.length_pos.mpr hne
    positivity
  rw [List.sum_append, List.length_append]
  push_cast
  field_simp
  ring

/-- C2 (amended): the `Std` row appended by `__add_avg_std_metrics`
holds, in each metric column, the `ddof=1` standard deviation of the
column over the `N` fold rows TOGETHER WITH the already-appended `Avg`
row — which equals the population (`ddof=0`) standard deviation of the
`N` fold values, `sqrt(SS/N)`, not the sample standard deviation
`sqrt(SS/(N-1))` the claim states. -/
theorem std_row_is_population_std (n : ℕ) (tbl : List (String × List (Option ℝ)))
    (j : ℕ) (hj : j < n) (cs : List ℝ)
    (hcol : column tbl j = cs.map some) (hne : cs ≠ []) :
    ∃ cells, (addAvgStd n tbl)[tbl.length + 1]? = some ("Std", cells) ∧
      cells[j]? = some (some (Real.sqrt
        ((cs.map fun x => (x - cs.sum / cs.length) ^ 2).sum / cs.length))) := by
  have hN : (0 : ℝ) < cs.length := by
    have := List.length_pos.mpr hne
    positivity
  refine ⟨(List.range n).map fun i =>
    pandasStd (column (tbl ++ [("Avg", (List.range n).map fun i =>
      pandasMean (column tbl i))]) i), ?_, ?_⟩
  · rw [addAvgStd]
    rw [show tbl.length + 1
        = (tbl ++ [("Avg", (List.range n).map fun i =>
            pandasMean (column tbl i))]).length by simp]
    rw [List.getElem?_append_right (le_refl _)]
    simp
  · rw [List.getElem?_map, List.getElem?_range hj, Option.map_some']
    rw [column_append_row]
    have havg : ((List.range n).map fun i => pandasMean (column tbl i)).getD j none
        = some (cs.sum / cs.length) := by
      rw [List.getD_eq_getElem?_getD, List.getElem?_map, List.getElem?_range hj]
      rw [Option.map_some', Option.getD_some, hcol, pandasMean_all_some cs hne]
    rw [havg, hcol]
    have hfm : ((cs.map some ++ [some (cs.sum / cs.length)]).filterMap id)
        = cs ++ [cs.sum / cs.length] := by
      simp [List.filterMap_map]
    rw [pandasStd, hfm]
    have hlen2 : ¬ (cs ++ [cs.sum / cs.length]).length ≤ 1 := by
      rw [List.length_append, List.length_singleton]
      have := List.length_pos.mpr hne
      omega
    rw [if_neg hlen2]
    congr 2
    rw [mean_append_own_mean cs hne]
    rw [List.map_append, List.sum_append]
    have hz : (([cs.sum / cs.length].map
        fun x => (x - cs.sum / cs.length) ^ 2)).sum = 0 := by
      simp
    rw [hz, add_zero, List.length_append, List.length_singleton]
    push_cast
    norm_num

/-- Counterexample for C2 as stated: for the two fold values `0` and
`2`, the code's `Std` cell is `1` (std over the folds plus the `Avg`
row), while the sample (`ddof=1`) standard deviation over the folds
alone is `sqrt 2 ≠ 1`. -/
theorem std_row_counterexample :
    (∃ cells,
      (addAvgStd 1 [("Fold 1", [some (0 : ℝ)]), ("Fold 2", [some 2])])[3]? =
        some ("Std", cells) ∧ cells[0]? = some (some 1)) ∧
    (1 : ℝ) ≠ Real.sqrt ((((0 : ℝ) - 1) ^ 2 + ((2 : ℝ) - 1) ^ 2) / (2 - 1)) := by
  constructor
  · refine ⟨[some 1], ?_, rfl⟩
    have h0 : pandasMean (column [("Fold 1", [some (0 : ℝ)]), ("Fold 2", [some 2])] 0)
        = some 1 := by
      rw [show column [("Fold 1", [some (0 : ℝ)]), ("Fold 2", [some 2])] 0
          = ([0, 2] : List ℝ).map some from rfl]
      rw [pandasMean_all_some _ (by simp)]
      norm_num
    have h1 : pandasStd (column ([("Fold 1", [some (0 : ℝ)]), ("Fold 2", [some 2])]
        ++ [("Avg", [some 1])]) 0) = some 1 := by
      rw [show column ([("Fold 1", [some (0 : ℝ)]), ("Fold 2", [some 2])]
          ++ [("Avg", [some 1])]) 0 = ([0, 2, 1] : List ℝ).map some from rfl]
      rw [pandasStd, filterMap_id_map_some]
      rw [if_neg (by norm_num)]
      congr 1
      rw [show (([0, 2, 1] : List ℝ).map
            fun x => (x - ([0, 2, 1] : List ℝ).sum / (([0, 2, 1] : List ℝ).length : ℝ))
              ^ 2).sum / ((([0, 2, 1] : List ℝ).length : ℝ) - 1) = 1 from by norm_num]
      exact Real.sqrt_one
    rw [addAvgStd]
    rw [show List.range 1 = [0] from rfl]
    simp only [List.map_cons, List.map_nil, h0]
    rw [h1]
    rfl
  · intro h
    have h2 : Real.sqrt ((((0 : ℝ) - 1) ^ 2 + ((2 : ℝ) - 1) ^ 2) / (2 - 1))
        = Real.sqrt 2 := by norm_num
    rw [h2] at h
    have := Real.sq_sqrt (by norm_num : (0 : ℝ) ≤ 2)
    rw [← h] at this
    norm_num at this

/-- Witness for C4 on the two-fold table with values `0` and `2`. -/
theorem avg_row_is_fold_mean_witness :
    ∃ cells,
      (addAvgStd 1 [("Fold 1", [some (0 : ℝ)]), ("Fold 2", [some 2])])[2]? =
        some ("Avg", cells) ∧
      cells[0]? = some (some (([0, 2] : List ℝ).sum / ([0, 2] : List ℝ).length)) :=
  avg_row_is_fold_mean 1 [("Fold 1", [some (0 : ℝ)]), ("Fold 2", [some 2])] 0
    (by decide) [0, 2] rfl (by simp)

/-- Witness for the amended C2 on the two-fold table with values `0`
and `2`. -/
theorem std_row_is_population_std_witness :
    ∃ cells,
      (addAvgStd 1 [("Fold 1", [some (0 : ℝ)]), ("Fold 2", [some 2])])[3]? =
        some ("Std", cells) ∧
      cells[0]? = some (some (Real.sqrt
        ((([0, 2] : List ℝ).map
            fun x => (x - ([0, 2] : List ℝ).sum / ([0, 2] : List ℝ).length) ^ 2).sum /
          ([0, 2] : List ℝ).length))) :=
  std_row_is_population_std 1 [("Fold 1", [some (0 : ℝ)]), ("Fold 2", [some 2])] 0
    (by decide) [0, 2] rfl (by simp)

/-! ## `__format_metrics_values` and the public entry point

The final step rounds every display cell to its metric's configured
precision and renders it as a thousands-separated string; the string
rendering is abstracted to the rounded numeric value it displays (the
claims below only need that this step produces a NEW display table and
does not touch the per-metric mapping). -/

open scoped Classical in
/-- `round(x)` to an integer with Python's round-half-to-even
tie-breaking. -/
noncomputable def halfEvenInt (x : ℝ) : ℤ :=
  if x - Int.floor x = 1 / 2 then
    (if 2 ∣ Int.floor x then Int.floor x else Int.floor x + 1)
  else Int.floor (x + 1 / 2)

/-- Python `round(x, d)` at `d` decimals, composed with the
`'{:,.df}'.format` rendering abstracted to the rounded value shown. -/
noncomputable def pyRound (d : ℕ) (x : ℝ) : ℝ :=
  halfEvenInt (x * 10 ^ d) / 10 ^ d

/-- `__format_metrics_values`: rewrite every metric column of the
display table through round-then-format; `ds` lists the configured
per-metric precisions in requested-metric order. -/
noncomputable def formatMetricsValues {L : Type} (ds : List ℕ)
    (tbl : List (L × List (Option ℝ))) : List (L × List (Option ℝ)) :=
  tbl.map fun r => (r.1, List.zipWith (fun d x => x.map (pyRound d)) ds r.2)

/-- The plain-mode display table before formatting: one row per sorted
group key, metric cells in requested order. -/
noncomputable def displayTablePlain [LinearOrder K] [DecidableEq K] (agg : Bool)
    (ms : List MetricName) (rows : List (EvalRow K)) :
    List (K × List (Option ℝ)) :=
  (sortedKeys rows).map fun k => (k, ms.map fun m => metricCell agg m rows k)

/-- The CV-mode display table before the summary rows and formatting:
one row per fold in fold order, metric cells in requested order. -/
noncomputable def displayTableCV [LinearOrder K] [DecidableEq K] (agg : Bool)
    (ms : List MetricName) (rows : List (EvalRow K)) :
    List (String × List (Option ℝ)) :=
  (foldTable (sortedKeys rows)).map fun r => (r.1, ms.map fun m => metricCell agg m rows r.2)

/-- Plain-mode `get_perf_metrics`: the per-metric mapping is sliced
(copied) from the metrics table, then the display table alone passes
through `__format_metrics_values`. -/
noncomputable def getPerfMetricsPlain [LinearOrder K] [DecidableEq K] (agg : Bool)
    (ms : List MetricName) (cfg : MetricName → ℕ) (rows : List (EvalRow K)) :
    List (K × List (Option ℝ)) × List (MetricName × List (K × Option ℝ)) :=
  (formatMetricsValues (ms.map cfg) (displayTablePlain agg ms rows),
   metricsDictPlain agg ms rows)

/-- CV-mode `get_perf_metrics`: the per-metric mapping is sliced before
`__add_avg_std_metrics` and `__format_metrics_values` touch the display
table. -/
noncomputable def getPerfMetricsCV [LinearOrder K] [DecidableEq K] (agg : Bool)
    (ms : List MetricName) (cfg : MetricName → ℕ) (rows : List (EvalRow K)) :
    List (String × List (Option ℝ)) × List (MetricName × List (String × Option ℝ)) :=
  (formatMetricsValues (ms.map cfg) (addAvgStd ms.length (displayTableCV agg ms rows)),
   metricsDictCV agg ms rows)

/-- C8: in both modes the returned per-metric mapping is exactly the
unformatted mapping — the rounding-and-formatting of the display table
leaves it unchanged — and each of its tables holds the raw numeric
metric cells. -/
theorem format_leaves_dict_unchanged [LinearOrder K] [DecidableEq K] (agg : Bool)
    (ms : List MetricName) (cfg : MetricName → ℕ) (rows : List (EvalRow K)) :
    (getPerfMetricsPlain agg ms cfg rows).2 = metricsDictPlain agg ms rows ∧
    (getPerfMetricsCV agg ms cfg rows).2 = metricsDictCV agg ms rows ∧
    (∀ p ∈ (getPerfMetricsPlain agg ms cfg rows).2,
      p.2 = (sortedKeys rows).map fun k => (k, metricCell agg p.1 rows k)) := by
  refine ⟨rfl, rfl, ?_⟩
  intro p hp
  obtain ⟨m, hm, heq⟩ := List.mem_map.mp hp
  rw [← heq]

/-- Witness for C8: the single `MAE` dict entry of the one-row table
holds the raw metric cells. -/
theorem format_leaves_dict_unchanged_witness :
    witnessDictEntry.2 = (sortedKeys [witnessRow]).map
      fun k => (k, metricCell false witnessDictEntry.1 [witnessRow] k) :=
  (format_leaves_dict_unchanged false [MetricName.mae] (fun _ => 2) [witnessRow]).2.2
    witnessDictEntry (List.mem_singleton_self _)

end StreamlitProphet
